import Mathlib

/-! Shallow embedding of the air-drums tracking / triggering core:
`drums/frame.py`, `drums/controllers.py`, `drums/percussion.py`,
`drums/drum_set.py`, `drums/tracker.py`, `drums/interface.py`.

Modelling conventions:
* Python floats are modelled by exact numbers: rationals for data that is
  stored and compared (timestamps, coordinates, radii, HSV components) and
  real numbers for derived analytic quantities (Euclidean norms, `log2`).
* `collections.deque(maxlen=n)` is a list whose `append` evicts from the
  front when full (`dequeAppend`).
* Python `set` is a `Finset String`.
* Methods that mutate `self` become functions returning the updated record;
  methods with a result and a side effect return a pair.
* External OpenCV / simpleaudio capabilities (blur, colour conversion,
  thresholding, contour extraction) are opaque parameters collected in
  `CVRuntime`; the spec treats them as given capabilities.
-/

open scoped Classical

/-- The `HSV` colour from `controllers.py` (namedtuple of three components;
components may be ints or floats in Python, modelled as rationals). -/
structure HSV where
  hue : ℚ
  saturation : ℚ
  value : ℚ
deriving DecidableEq

/-- The `HSV.MINIMUM = (0, 0, 0)`. -/
def HSV.MINIMUM : HSV := ⟨0, 0, 0⟩

/-- The `HSV.MAXIMUM = (180, 255, 255)`. -/
def HSV.MAXIMUM : HSV := ⟨180, 255, 255⟩

/-- The `HSV.minimum`: element-wise minimum (`np.minimum`). -/
def HSV.minimum (h1 h2 : HSV) : HSV :=
  ⟨min h1.hue h2.hue, min h1.saturation h2.saturation, min h1.value h2.value⟩

/-- The `HSV.maximum`: element-wise maximum (`np.maximum`). -/
def HSV.maximum (h1 h2 : HSV) : HSV :=
  ⟨max h1.hue h2.hue, max h1.saturation h2.saturation, max h1.value h2.value⟩

/-- The `HSV.__add__`: element-wise sum, clamped above by `MAXIMUM`. -/
def HSV.add (h1 h2 : HSV) : HSV :=
  HSV.minimum ⟨h1.hue + h2.hue, h1.saturation + h2.saturation, h1.value + h2.value⟩ HSV.MAXIMUM

/-- The `HSV.__sub__`: element-wise difference, clamped below by `MINIMUM`. -/
def HSV.sub (h1 h2 : HSV) : HSV :=
  HSV.maximum ⟨h1.hue - h2.hue, h1.saturation - h2.saturation, h1.value - h2.value⟩ HSV.MINIMUM

/-- A colour lies inside the HSV colour cube `[0,0,0] .. [180,255,255]`. -/
def HSV.inRange (h : HSV) : Prop :=
  0 ≤ h.hue ∧ h.hue ≤ 180 ∧ 0 ≤ h.saturation ∧ h.saturation ≤ 255 ∧
    0 ≤ h.value ∧ h.value ≤ 255

instance (h : HSV) : Decidable h.inRange := by
  unfold HSV.inRange; infer_instance

/-- The `collections.deque(maxlen=maxlen)` append: add on the right and evict
from the left whenever the length would exceed `maxlen`. -/
def dequeAppend {α : Type} (maxlen : ℕ) (q : List α) (x : α) : List α :=
  let q2 := q ++ [x]
  if maxlen < q2.length then q2.drop (q2.length - maxlen) else q2

/-- Repeatedly push a list of elements into a deque of capacity `maxlen`. -/
def dequeAppendAll {α : Type} (maxlen : ℕ) (q : List α) (xs : List α) : List α :=
  xs.foldl (dequeAppend maxlen) q

/-- The `Frame` from `frame.py` (slots `grabbed image fps frame_count timestamp`);
the image payload is opaque to the core, hence a type parameter. -/
structure Frame (Image : Type) where
  grabbed : Bool
  image : Image
  fps : Option ℚ
  frame_count : Option ℕ
  timestamp : ℚ

/-- The `Frame.__init__`: `self.timestamp = timestamp or time.time()`.
`now` stands for the construction-time clock value `time.time()`.
A float argument is falsy in Python exactly when it is zero, and a `None`
argument is falsy, so both fall back to `now`. -/
def Frame.init {Image : Type} (grabbed : Bool) (image : Image) (fps : Option ℚ)
    (frame_count : Option ℕ) (timestamp : Option ℚ) (now : ℚ) : Frame Image :=
  { grabbed := grabbed, image := image, fps := fps, frame_count := frame_count,
    timestamp :=
      match timestamp with
      | some t => if t = 0 then now else t
      | none => now }

/-- The `PositionInTime` namedtuple from `tracker.py`. -/
structure PositionInTime where
  position : Option (ℚ × ℚ)
  timestamp : ℚ

/-- Euclidean distance `np.linalg.norm(np.asarray(p) - np.asarray(q))`. -/
noncomputable def euclideanDist (p q : ℚ × ℚ) : ℝ :=
  Real.sqrt (((p.1 : ℝ) - (q.1 : ℝ)) ^ 2 + ((p.2 : ℝ) - (q.2 : ℝ)) ^ 2)

/-- The `Controller` from `controllers.py`.  (In Python `name` defaults to
`None`; the pipeline always constructs controllers with a name from the
settings file, so it is modelled as a plain string.) -/
structure Controller where
  key : String
  name : String
  color_low : HSV
  color_high : HSV
  positions_in_time : List PositionInTime
  position : Option (ℚ × ℚ)
  velocity : Option ℝ
  velocity_max_volume : ℚ

/-- The `Controller.DEQUE_MAX_LENGTH = 50`. -/
def Controller.DEQUE_MAX_LENGTH : ℕ := 50

/-- The `Controller.__init__`: empty position history, no position, no velocity. -/
def Controller.init (key name : String) (color_low color_high : HSV)
    (velocity_max_volume : ℚ) : Controller :=
  { key := key, name := name, color_low := color_low, color_high := color_high,
    positions_in_time := [], position := none, velocity := none,
    velocity_max_volume := velocity_max_volume }

/-- The `Controller.refresh_motion_attributes`:
update `position` to the newest sample's position when that is non-null;
recompute `velocity` from the two newest samples when both positions are
non-null and their timestamp difference is positive. -/
noncomputable def Controller.refresh_motion_attributes (c : Controller) : Controller :=
  let c1 :=
    match c.positions_in_time.getLast? with
    | some s => match s.position with
      | some p => { c with position := some p }
      | none => c
    | none => c
  match c.positions_in_time.getLast?, c.positions_in_time.dropLast.getLast? with
  | some s1, some s2 =>
    match s1.position, s2.position with
    | some p1, some p2 =>
      if 0 < s1.timestamp - s2.timestamp then
        let v : ℝ := euclideanDist p1 p2 / ((s1.timestamp - s2.timestamp : ℚ) : ℝ)
        { c1 with velocity := some v }
      else c1
    | _, _ => c1
  | _, _ => c1

/-- One observation step of a controller, as performed per frame by
`Tracker.track_controllers_in_frame`: append a `PositionInTime` sample to
the bounded history, then `refresh_motion_attributes` (the spec's
`observe(position, timestamp)`). -/
noncomputable def Controller.observe (c : Controller) (pos : Option (ℚ × ℚ))
    (t : ℚ) : Controller :=
  Controller.refresh_motion_attributes
    { c with positions_in_time :=
        dequeAppend Controller.DEQUE_MAX_LENGTH c.positions_in_time ⟨pos, t⟩ }

/-- Model of `np.abs` on one int16 sample: numpy keeps the dtype, so the
absolute value is computed in two's complement and WRAPS at the most
negative value: `np.abs(np.int16(-32768)) = -32768`.  Every other int16
value gets its mathematical absolute value. -/
def int16Abs (s : ℤ) : ℤ :=
  if s = -32768 then -32768 else |s|

/-- Model of `np.max(np.abs(audio_data))`: maximum of the int16 absolute
values of the samples.  `np.max` raises on an empty array, so the empty
case is an unreachable dummy value. -/
def peakAmplitude : List ℤ → ℤ
  | [] => 0
  | [s] => int16Abs s
  | s :: rest => max (int16Abs s) (peakAmplitude rest)

/-- Truncation toward zero: the rounding mode of a C float-to-integer
cast, which numpy uses when converting a float array to an integer
dtype. -/
noncomputable def truncToInt (x : ℝ) : ℤ :=
  if 0 ≤ x then ⌊x⌋ else ⌈x⌉

/-- Reduction of an integer to the int16 range by two's-complement
wraparound (keep the low 16 bits, sign-extended). -/
def int16Wrap (n : ℤ) : ℤ :=
  (n + 32768) % 65536 - 32768

/-- Conversion of a float to an int16 sample as done by `np.int16` on a
float array: truncate toward zero, then reduce to 16 bits by
two's-complement wraparound. -/
noncomputable def npToInt16 (x : ℝ) : ℤ :=
  int16Wrap (truncToInt x)

/-- The `Percussion.set_volume` from `percussion.py`: clamp `volume` into
`[0, 1]`, compute `volume_factor = volume * 32767 / np.max(np.abs(audio_data))`,
and scale every sample of the given waveform by it, converting back to
int16 samples. -/
noncomputable def set_volume (sound : List ℤ) (volume : ℝ) : List ℤ :=
  let v1 : ℝ := if volume < 0 then 0 else volume
  let v2 : ℝ := if 1 < v1 then 1 else v1
  let volume_factor : ℝ := v2 * 32767 / ((peakAmplitude sound : ℤ) : ℝ)
  sound.map (fun s : ℤ => npToInt16 ((s : ℝ) * volume_factor))

/-- The `Percussion` from `percussion.py`.  `sound` holds the int16 samples of
the wave object loaded in `__init__` (never reassigned afterwards);
`sound_with_volume` starts out as the same waveform and is replaced on
every volume change.  `currently_playing_controllers` is the Python `set`
of controller *names* currently inside the zone. -/
structure Percussion where
  name : String
  sound_path : String
  center_position : ℚ × ℚ
  radius : ℚ
  currently_playing_controllers : Finset String
  sound : List ℤ
  sound_with_volume : List ℤ

/-- The `Percussion.__init__`: fresh empty `currently_playing_controllers`,
`sound_with_volume = sound` (the loaded wave object itself). -/
def Percussion.init (name sound_path : String) (center_position : ℚ × ℚ)
    (radius : ℚ) (sound : List ℤ) : Percussion :=
  { name := name, sound_path := sound_path, center_position := center_position,
    radius := radius, currently_playing_controllers := ∅,
    sound := sound, sound_with_volume := sound }

/-- The `Percussion.play`: when the controller's velocity is known, compute
`volume = np.log2(1 + velocity / velocity_max_volume)` and rebuild
`sound_with_volume` from the ORIGINAL waveform `self.sound`; then play
`sound_with_volume`.  Returns the updated percussion and the waveform
handed to the audio backend. -/
noncomputable def Percussion.play (p : Percussion) (c : Controller) :
    Percussion × List ℤ :=
  match c.velocity with
  | some v =>
    let volume : ℝ := Real.logb 2 (1 + v / ((c.velocity_max_volume : ℚ) : ℝ))
    let s := set_volume p.sound volume
    ({ p with sound_with_volume := s }, s)
  | none => (p, p.sound_with_volume)

/-- The `Percussion.is_played`: `False` when the controller has no position
(`not controller.position`; a coordinate pair is always truthy in Python);
on entry into the zone (`distance < radius` and the controller's NAME not
yet in `currently_playing_controllers`) record the name and return `True`;
when outside the zone and the name is recorded, remove it; `False`
otherwise.  Returns the flag together with the updated percussion. -/
noncomputable def Percussion.is_played (p : Percussion) (c : Controller) :
    Bool × Percussion :=
  match c.position with
  | none => (false, p)
  | some pos =>
    if euclideanDist p.center_position pos < (p.radius : ℝ) then
      if c.name ∉ p.currently_playing_controllers then
        (true, { p with currently_playing_controllers :=
                          insert c.name p.currently_playing_controllers })
      else (false, p)
    else if c.name ∈ p.currently_playing_controllers then
      (false, { p with currently_playing_controllers :=
                        p.currently_playing_controllers.erase c.name })
    else (false, p)

/-- Inner loop of `DrumSet.play` for one controller:
`for percussion in self.percussion: if percussion.is_played(controller):
percussion.play(controller)`.  Returns the updated percussion list and the
number of hits fired. -/
noncomputable def playPercussionList (c : Controller) :
    List Percussion → List Percussion × ℕ
  | [] => ([], 0)
  | p :: rest =>
    let hp := p.is_played c
    let p2 := if hp.1 then (hp.2.play c).1 else hp.2
    let r := playPercussionList c rest
    (p2 :: r.1, (if hp.1 then 1 else 0) + r.2)

/-- Outer loop of `DrumSet.play` over controllers, threading the percussion
state. -/
noncomputable def playControllerList :
    List Controller → List Percussion → List Percussion × ℕ
  | [], ps => (ps, 0)
  | c :: rest, ps =>
    let r1 := playPercussionList c ps
    let r2 := playControllerList rest r1.1
    (r2.1, r1.2 + r2.2)

/-- The `DrumSet` from `drum_set.py`: the full list of controllers and
percussion instruments. -/
structure DrumSet where
  controllers : List Controller
  percussion : List Percussion

/-- The `DrumSet.play`: evaluate every (controller, percussion) pair; on a hit,
trigger that percussion's playback.  Also reports the number of hits. -/
noncomputable def DrumSet.play (ds : DrumSet) : DrumSet × ℕ :=
  let r := playControllerList ds.controllers ds.percussion
  ({ ds with percussion := r.1 }, r.2)

/-- External OpenCV capabilities used by `Controller.get_controller_mask`
and `Controller.get_largest_contour_center` (blur, BGR→HSV conversion,
colour thresholding, erosion, dilation, contour centroid extraction).
The core treats them as opaque deterministic functions. -/
structure CVRuntime (Image Mask : Type) where
  gaussianBlur : Image → Image
  cvtColorHSV : Image → Image
  inRange : Image → HSV → HSV → Mask
  erode : Mask → Mask
  dilate : Mask → Mask
  largestContourCenter : Mask → Option (ℚ × ℚ)

/-- The `Controller.get_controller_mask`: the frame is `copy.deepcopy`-ed and
only the copy's image is overwritten by the blur; the caller's frame is
returned unchanged next to the computed mask (erode and dilate run with
`iterations=2`). -/
def get_controller_mask {Image Mask : Type} (cv : CVRuntime Image Mask)
    (c : Controller) (frame : Frame Image) : Mask × Frame Image :=
  let frameCopy := frame
  let frameCopy2 := { frameCopy with image := cv.gaussianBlur frameCopy.image }
  let image_hsv := cv.cvtColorHSV frameCopy2.image
  let mask := cv.inRange image_hsv c.color_low c.color_high
  let mask2 := cv.dilate (cv.dilate (cv.erode (cv.erode mask)))
  (mask2, frame)

/-- The `Tracker.track_controllers_in_frame`: for every controller, compute its
mask from the frame, extract the largest-contour centre, append the
`PositionInTime` sample stamped with the frame's timestamp and refresh the
motion attributes; finally return the frame. -/
noncomputable def track_controllers_in_frame {Image Mask : Type}
    (cv : CVRuntime Image Mask) (frame : Frame Image) :
    List Controller → Frame Image × List Controller
  | [] => (frame, [])
  | c :: rest =>
    let mf := get_controller_mask cv c frame
    let position := cv.largestContourCenter mf.1
    let c2 := c.observe position mf.2.timestamp
    let r := track_controllers_in_frame cv mf.2 rest
    (r.1, c2 :: r.2)

/-- One iteration of the tracker loop body from `Tracker.start_tracker`
once a frame is available: track all controllers in the frame, push the
tracked frame downstream, and call `DrumSet.play`.  Returns the new drum
set state, the frame pushed to the tracked-frames queue, and the number of
hits fired. -/
noncomputable def trackerCycle {Image Mask : Type} (cv : CVRuntime Image Mask)
    (ds : DrumSet) (frame : Frame Image) : DrumSet × Frame Image × ℕ :=
  let tf := track_controllers_in_frame cv frame ds.controllers
  let r := DrumSet.play { ds with controllers := tf.2 }
  (r.1, tf.1, r.2)

/-- The `Interface.DEQUE_MAX_LENGTH = 50`: capacity of the two frame queues
`frames_to_track` and `frames_tracked` (built as `deque(maxlen=50)`). -/
def Interface.DEQUE_MAX_LENGTH : ℕ := 50

/-! ### Auxiliary lemmas -/

/-- Appending to a bounded deque of positive capacity always makes the new
element the newest (rightmost) one. -/
theorem dequeAppend_getLast {α : Type} (maxlen : ℕ) (hm : 0 < maxlen)
    (q : List α) (x : α) : (dequeAppend maxlen q x).getLast? = some x := by
  unfold dequeAppend
  by_cases h : maxlen < (q ++ [x]).length
  · rw [if_pos h]
    have hlen : (q ++ [x]).length - maxlen ≤ q.length := by
      simp only [List.length_append, List.length_singleton]
      omega
    rw [List.drop_append_of_le_length hlen]
    exact List.getLast?_concat _
  · rw [if_neg h]
    exact List.getLast?_concat _

/-- When the newest sample has a null position, `refresh_motion_attributes`
changes nothing (neither `position` nor `velocity`). -/
theorem refresh_of_last_none (c : Controller) (t : ℚ)
    (h : c.positions_in_time.getLast? = some ⟨none, t⟩) :
    c.refresh_motion_attributes = c := by
  unfold Controller.refresh_motion_attributes
  rw [h]
  cases h2 : c.positions_in_time.dropLast.getLast? <;> simp

/-- When the newest sample has position `p`, `refresh_motion_attributes`
sets `position := some p` (whatever happens to the velocity). -/
theorem refresh_position_of_last (c : Controller) (p : ℚ × ℚ) (t : ℚ)
    (h : c.positions_in_time.getLast? = some ⟨some p, t⟩) :
    c.refresh_motion_attributes.position = some p := by
  unfold Controller.refresh_motion_attributes
  rw [h]
  cases h2 : c.positions_in_time.dropLast.getLast? with
  | none => simp
  | some s2 =>
    cases h3 : s2.position with
    | none => simp [h3]
    | some p2 => by_cases h4 : s2.timestamp < t <;> simp [h3, h4]

/-! ### Claims C3, C4, C5 — Controller motion model -/

/-- C3: for a controller whose two most recent samples both carry non-null
positions and whose newest timestamp is strictly greater than the previous
one, the motion-attribute refresh sets
`velocity = euclidean_distance(pos[-1], pos[-2]) / (t[-1] - t[-2])`. -/
theorem refresh_velocity_first_difference (c : Controller) (p1 p2 : ℚ × ℚ)
    (t1 t2 : ℚ) (h1 : c.positions_in_time.getLast? = some ⟨some p1, t1⟩)
    (h2 : c.positions_in_time.dropLast.getLast? = some ⟨some p2, t2⟩)
    (ht : t2 < t1) :
    c.refresh_motion_attributes.velocity =
      some (euclideanDist p1 p2 / ((t1 - t2 : ℚ) : ℝ)) := by
  unfold Controller.refresh_motion_attributes
  rw [h1, h2]
  simp [ht]

/-- Concrete controller used in the C3 witness: history holds the samples
`(pos=(0,0), t=0)` and then `(pos=(3,4), t=2)`. -/
def controllerForC3 : Controller :=
  { Controller.init "key_c3" "stick_c3" (HSV.MAXIMUM) (HSV.MINIMUM) 2000 with
      positions_in_time := [⟨some (0, 0), 0⟩, ⟨some (3, 4), 2⟩] }

/-- C3 witness: samples `(pos=(0,0), t=0)` then `(pos=(3,4), t=2)` give
velocity `5 / 2 = 2.5`. -/
theorem refresh_velocity_first_difference_witness :
    controllerForC3.positions_in_time.getLast? = some ⟨some (3, 4), 2⟩ ∧
    controllerForC3.positions_in_time.dropLast.getLast? = some ⟨some (0, 0), 0⟩ ∧
    (0 : ℚ) < 2 ∧
    controllerForC3.refresh_motion_attributes.velocity = some ((5 : ℝ) / 2) := by
  refine ⟨rfl, rfl, by norm_num, ?_⟩
  have h := refresh_velocity_first_difference controllerForC3 (3, 4) (0, 0) 2 0
    rfl rfl (by norm_num)
  rw [h]
  have hd : euclideanDist (3, 4) (0, 0) = 5 := by
    unfold euclideanDist
    norm_num
    rw [show (25 : ℝ) = 5 ^ 2 by norm_num, Real.sqrt_sq (by norm_num : (0:ℝ) ≤ 5)]
  rw [hd]
  norm_num

/-- C4: observing a non-null position and then immediately a null position
leaves `currentPosition` at the non-null value (hold-last-known policy) and
leaves `velocity` exactly as it was before the null sample. -/
theorem observe_hold_last_known (c : Controller) (p : ℚ × ℚ) (t1 t2 : ℚ) :
    ((c.observe (some p) t1).observe none t2).position = some p ∧
    ((c.observe (some p) t1).observe none t2).velocity =
      (c.observe (some p) t1).velocity := by
  have hpos : 0 < Controller.DEQUE_MAX_LENGTH := by
    unfold Controller.DEQUE_MAX_LENGTH; norm_num
  set c1 := c.observe (some p) t1 with hc1
  have hlast2 :
      (dequeAppend Controller.DEQUE_MAX_LENGTH c1.positions_in_time
        ⟨none, t2⟩).getLast? = some ⟨none, t2⟩ :=
    dequeAppend_getLast _ hpos _ _
  have hstep : (c1.observe none t2) = { c1 with positions_in_time := dequeAppend Controller.DEQUE_MAX_LENGTH c1.positions_in_time ⟨none, t2⟩ } := by
    unfold Controller.observe
    exact refresh_of_last_none _ t2 hlast2
  have hc1pos : c1.position = some p := by
    rw [hc1]
    unfold Controller.observe
    exact refresh_position_of_last _ p t1 (dequeAppend_getLast _ hpos _ _)
  rw [hstep]
  exact ⟨hc1pos, rfl⟩

/-- C5: when the two most recent samples carry non-null positions but the
timestamp difference is non-positive (degenerate timestamps), the velocity
update is skipped: `velocity` keeps its previous value.  The refresh is a
total function, so no error can be raised. -/
theorem refresh_skips_degenerate_timestamp (c : Controller) (p1 p2 : ℚ × ℚ)
    (t1 t2 : ℚ) (h1 : c.positions_in_time.getLast? = some ⟨some p1, t1⟩)
    (h2 : c.positions_in_time.dropLast.getLast? = some ⟨some p2, t2⟩)
    (ht : t1 - t2 ≤ 0) :
    c.refresh_motion_attributes.velocity = c.velocity := by
  unfold Controller.refresh_motion_attributes
  rw [h1, h2]
  have ht2 : ¬ t2 < t1 := by intro hlt; exact absurd (by linarith : (0:ℚ) < t1 - t2) (not_lt.mpr ht)
  simp [ht2]

/-- Concrete controller used in the C5 witness: prior velocity `7`, two
samples with the same timestamp `5`. -/
noncomputable def controllerForC5 : Controller :=
  { Controller.init "key_c5" "stick_c5" (HSV.MAXIMUM) (HSV.MINIMUM) 2000 with
      positions_in_time := [⟨some (0, 0), 5⟩, ⟨some (1, 1), 5⟩],
      velocity := some 7 }

/-- C5 witness: duplicate timestamps leave the prior velocity `7` intact. -/
theorem refresh_skips_degenerate_timestamp_witness :
    controllerForC5.positions_in_time.getLast? = some ⟨some (1, 1), 5⟩ ∧
    controllerForC5.positions_in_time.dropLast.getLast? = some ⟨some (0, 0), 5⟩ ∧
    (5 : ℚ) - 5 ≤ 0 ∧
    controllerForC5.refresh_motion_attributes.velocity = some 7 := by
  refine ⟨rfl, rfl, by norm_num, ?_⟩
  have h := refresh_skips_degenerate_timestamp controllerForC5 (1, 1) (0, 0) 5 5
    rfl rfl (by norm_num)
  rw [h]
  rfl

/-! ### Claim C6 — HSV add/sub clamp invariant -/

/-- C6: for every pair of HSV triples (inside the HSV colour cube, which is
the domain of the `HSV` colour type), the element-wise `add` and `sub`
combinators produce results whose every component stays within
`[0,0,0] .. [180,255,255]`. -/
theorem hsv_add_sub_clamped (a b : HSV) (ha : a.inRange) (hb : b.inRange) :
    (a.add b).inRange ∧ (a.sub b).inRange := by
  obtain ⟨ha1, ha2, ha3, ha4, ha5, ha6⟩ := ha
  obtain ⟨hb1, hb2, hb3, hb4, hb5, hb6⟩ := hb
  refine ⟨⟨?_, ?_, ?_, ?_, ?_, ?_⟩, ?_, ?_, ?_, ?_, ?_, ?_⟩ <;>
    simp only [HSV.add, HSV.sub, HSV.minimum, HSV.maximum, HSV.MINIMUM,
      HSV.MAXIMUM, HSV.inRange] <;>
    first
      | exact le_min (by linarith) (by norm_num)
      | exact min_le_right _ _
      | exact le_max_right _ _
      | exact max_le (by linarith) (by norm_num)

/-- C6 witness: a concrete in-range pair of HSV colours. -/
theorem hsv_add_sub_clamped_witness :
    HSV.inRange ⟨10, 20, 30⟩ ∧ HSV.inRange ⟨175, 250, 240⟩ ∧
    ((HSV.add ⟨10, 20, 30⟩ ⟨175, 250, 240⟩).inRange ∧
      (HSV.sub ⟨10, 20, 30⟩ ⟨175, 250, 240⟩).inRange) :=
  ⟨by decide, by decide, hsv_add_sub_clamped _ _ (by decide) (by decide)⟩

/-! ### Claim C10 — falsy explicit timestamps are replaced -/

/-- C10: a `Frame` constructed with explicit timestamp `0.0` (a falsy
float) stores the construction-time clock value `now` instead of `0`;
a non-zero explicit timestamp is stored unchanged; a `None` timestamp
defaults to `now`. -/
theorem frame_init_timestamp_falsy {Image : Type} (grabbed : Bool)
    (image : Image) (fps : Option ℚ) (fc : Option ℕ) (t now : ℚ) :
    ((Frame.init grabbed image fps fc (some 0) now).timestamp = now) ∧
    (t ≠ 0 → (Frame.init grabbed image fps fc (some t) now).timestamp = t) ∧
    ((Frame.init grabbed image fps fc none now).timestamp = now) := by
  refine ⟨by simp [Frame.init], fun ht => by simp [Frame.init, ht],
    by simp [Frame.init]⟩

/-- C10 witness: concrete frames with timestamps `0`, `5` and `None`,
constructed at clock value `99`. -/
theorem frame_init_timestamp_falsy_witness :
    ((Frame.init true () none none (some 0) 99).timestamp = 99) ∧
    ((5 : ℚ) ≠ 0 ∧ (Frame.init true () none none (some 5) 99).timestamp = 5) ∧
    ((Frame.init true () none none none 99).timestamp = 99) := by
  have h := frame_init_timestamp_falsy true () none none (5 : ℚ) 99
  exact ⟨h.1, ⟨by norm_num, h.2.1 (by norm_num)⟩, h.2.2⟩

/-! ### Claim C7 — bounded queues evict exactly the oldest element -/

/-- Pushing any list into an empty bounded deque of positive capacity `N`
keeps exactly the `min (length) N` newest elements, in order. -/
theorem dequeAppendAll_eq_drop {α : Type} (N : ℕ) (hN : 0 < N)
    (xs : List α) : dequeAppendAll N [] xs = xs.drop (xs.length - N) := by
  induction xs using List.reverseRecOn with
  | nil => simp [dequeAppendAll]
  | append_singleton ys x ih =>
    unfold dequeAppendAll at ih ⊢
    rw [List.foldl_append]
    simp only [List.foldl_cons, List.foldl_nil]
    rw [ih]
    unfold dequeAppend
    by_cases hcase : ys.length < N
    · have hk : ys.length - N = 0 := by omega
      have hk2 : (ys ++ [x]).length - N = 0 := by
        simp only [List.length_append, List.length_singleton]; omega
      rw [hk, hk2]
      simp only [List.drop_zero]
      rw [if_neg]
      simp only [List.length_append, List.length_singleton]
      omega
    · push_neg at hcase
      have hlen : (ys.drop (ys.length - N)).length = N := by
        rw [List.length_drop]; omega
      rw [if_pos]
      · have hlen2 : (ys.drop (ys.length - N) ++ [x]).length - N = 1 := by
          simp only [List.length_append, List.length_singleton, hlen]
          omega
        rw [hlen2]
        have h1le : 1 ≤ (ys.drop (ys.length - N)).length := by omega
        rw [List.drop_append_of_le_length h1le, List.drop_drop]
        have hfin : (ys ++ [x]).length - N = 1 + (ys.length - N) := by
          simp only [List.length_append, List.length_singleton]; omega
        rw [hfin]
        have hle2 : 1 + (ys.length - N) ≤ ys.length := by omega
        rw [List.drop_append_of_le_length hle2, Nat.add_comm 1 (ys.length - N)]
      · simp only [List.length_append, List.length_singleton, hlen]
        omega

/-- C7: pushing `N + 1` elements into an empty capacity-`N` bounded queue
(`deque(maxlen=N)`; capacity 50 for the two frame queues and the
position-history window) leaves exactly the `N` most recent elements in
their original relative order — only the single oldest element is dropped.
The push is a total function of the queue (it never blocks the producer). -/
theorem boundedQueue_evicts_single_oldest {α : Type} (N : ℕ) (hN : 0 < N)
    (xs : List α) (hlen : xs.length = N + 1) :
    dequeAppendAll N [] xs = xs.drop 1 ∧
    Interface.DEQUE_MAX_LENGTH = 50 ∧ Controller.DEQUE_MAX_LENGTH = 50 := by
  refine ⟨?_, rfl, rfl⟩
  rw [dequeAppendAll_eq_drop N hN xs, hlen]
  simp

/-- C7 witness: pushing four elements through a capacity-3 queue leaves the
last three in order. -/
theorem boundedQueue_evicts_single_oldest_witness :
    (0 : ℕ) < 3 ∧ ([0, 1, 2, 3] : List ℕ).length = 3 + 1 ∧
    (dequeAppendAll 3 [] ([0, 1, 2, 3] : List ℕ) = [1, 2, 3] ∧
      Interface.DEQUE_MAX_LENGTH = 50 ∧ Controller.DEQUE_MAX_LENGTH = 50) := by
  refine ⟨by norm_num, by decide, ?_⟩
  have h := boundedQueue_evicts_single_oldest 3 (by norm_num)
    ([0, 1, 2, 3] : List ℕ) (by decide)
  exact ⟨by rw [h.1]; rfl, h.2⟩

/-! ### Claim C1 — edge-triggered hit detection -/

/-- Controller used for the C1 counterexample: its unique `key` differs
from its display `name` (as with the settings-file controllers, whose keys
are identifiers and names are labels). -/
def controllerForC1 : Controller :=
  { Controller.init "key_c1" "stick_c1" (HSV.MAXIMUM) (HSV.MINIMUM) 2000 with
      position := some (0, 0) }

/-- Percussion used for the C1 counterexample: the controller's NAME is
recorded in `currently_playing_controllers`, its KEY is not. -/
def percussionForC1 : Percussion :=
  { name := "drum_c1", sound_path := "drum_c1.wav", center_position := (0, 0),
    radius := 10, currently_playing_controllers := {"stick_c1"},
    sound := [100], sound_with_volume := [100] }

/-- C1 counterexample: the claim says `isHit` returns `true` iff the
controller's KEY is absent from `activeControllers` (distance being below
the radius).  Here the distance is `0 < 10` and the key `"key_c1"` is
absent, yet `is_played` returns `false`, because the code tracks membership
by the controller's NAME `"stick_c1"`, which is present. -/
theorem isPlayed_ignores_key_counterexample :
    euclideanDist percussionForC1.center_position (0, 0) <
      ((percussionForC1.radius : ℚ) : ℝ) ∧
    controllerForC1.position = some (0, 0) ∧
    controllerForC1.key ∉ percussionForC1.currently_playing_controllers ∧
    (percussionForC1.is_played controllerForC1).1 = false := by
  have hdist : euclideanDist percussionForC1.center_position (0, 0) = 0 := by
    unfold euclideanDist percussionForC1
    norm_num
  refine ⟨by rw [hdist]; unfold percussionForC1; norm_num, rfl, by decide, ?_⟩
  have hlt : euclideanDist percussionForC1.center_position (0, 0) <
      ((percussionForC1.radius : ℚ) : ℝ) := by
    rw [hdist]; unfold percussionForC1; norm_num
  have hmem : controllerForC1.name ∈ percussionForC1.currently_playing_controllers := by decide
  show (percussionForC1.is_played controllerForC1).1 = false
  unfold Percussion.is_played
  have hpos : controllerForC1.position = some (0, 0) := rfl
  rw [hpos]
  simp only [hlt, if_true, if_pos hlt]
  rw [if_neg (by simp [hmem])]

/-- The `is_played` never changes the geometry of the zone: centre and radius
are untouched whatever branch is taken. -/
theorem isPlayed_static_fields (p : Percussion) (c : Controller) :
    (p.is_played c).2.center_position = p.center_position ∧
    (p.is_played c).2.radius = p.radius := by
  unfold Percussion.is_played
  cases hpos : c.position with
  | none => exact ⟨rfl, rfl⟩
  | some pos =>
    by_cases hd : euclideanDist p.center_position pos < ((p.radius : ℚ) : ℝ) <;>
      by_cases hmem : c.name ∈ p.currently_playing_controllers <;>
      simp [hd, hmem]

/-- C1 (amended: the zone membership set is keyed by the controller's NAME,
not its key): `is_played` returns `false` when the controller has no
position; when the distance to the centre is below the radius it returns
`true` iff the controller's name is not yet recorded, recording it; when
the distance is not below the radius a recorded name is removed and
`false` is returned.  Consequently a controller continuously inside the
zone yields exactly one `true`, and leaving then re-entering yields a
second `true`. -/
theorem isPlayed_name_edge_trigger (p : Percussion) (c : Controller) :
    (c.position = none → p.is_played c = (false, p)) ∧
    (∀ pos, c.position = some pos →
      euclideanDist p.center_position pos < ((p.radius : ℚ) : ℝ) →
        (((p.is_played c).1 = true ↔
            c.name ∉ p.currently_playing_controllers) ∧
          (p.is_played c).2.currently_playing_controllers =
            insert c.name p.currently_playing_controllers ∧
          ((p.is_played c).2.is_played c).1 = false)) ∧
    (∀ pos, c.position = some pos →
      ¬ euclideanDist p.center_position pos < ((p.radius : ℚ) : ℝ) →
        ((p.is_played c).1 = false ∧
          (p.is_played c).2.currently_playing_controllers =
            p.currently_playing_controllers.erase c.name)) ∧
    (∀ pos posOut, c.position = some pos →
      euclideanDist p.center_position pos < ((p.radius : ℚ) : ℝ) →
      ¬ euclideanDist p.center_position posOut < ((p.radius : ℚ) : ℝ) →
        ((((p.is_played c).2.is_played
            { c with position := some posOut }).2.is_played c).1 = true)) := by
  refine ⟨?_, ?_, ?_, ?_⟩
  · intro h
    unfold Percussion.is_played
    rw [h]
  · intro pos hpos hin
    by_cases hmem : c.name ∈ p.currently_playing_controllers
    · have h1 : p.is_played c = (false, p) := by
        unfold Percussion.is_played
        rw [hpos]
        simp [hin, hmem]
      rw [h1]
      refine ⟨by simp [hmem], (Finset.insert_eq_self.mpr hmem).symm, ?_⟩
      rw [h1]
    · have h1 : p.is_played c = (true, { p with currently_playing_controllers := insert c.name p.currently_playing_controllers }) := by
        unfold Percussion.is_played
        rw [hpos]
        simp [hin, hmem]
      rw [h1]
      refine ⟨by simp [hmem], rfl, ?_⟩
      unfold Percussion.is_played
      rw [hpos]
      simp [hin]
  · intro pos hpos hout
    by_cases hmem : c.name ∈ p.currently_playing_controllers
    · have h1 : p.is_played c = (false, { p with currently_playing_controllers := p.currently_playing_controllers.erase c.name }) := by
        unfold Percussion.is_played
        rw [hpos]
        simp [hout, hmem]
      rw [h1]
      exact ⟨rfl, rfl⟩
    · have h1 : p.is_played c = (false, p) := by
        unfold Percussion.is_played
        rw [hpos]
        simp [hout, hmem]
      rw [h1]
      exact ⟨rfl, (Finset.erase_eq_of_not_mem hmem).symm⟩
  · intro pos posOut hpos hin hout
    have hstatic := isPlayed_static_fields p c
    have hset : (p.is_played c).2.currently_playing_controllers =
        insert c.name p.currently_playing_controllers := by
      by_cases hmem : c.name ∈ p.currently_playing_controllers
      · unfold Percussion.is_played
        rw [hpos]
        simp [hin, hmem, Finset.insert_eq_self.mpr hmem]
      · unfold Percussion.is_played
        rw [hpos]
        simp [hin, hmem]
    set p1 := (p.is_played c).2 with hp1
    have h2 : p1.is_played { c with position := some posOut } = (false, { p1 with currently_playing_controllers := p1.currently_playing_controllers.erase c.name }) := by
      unfold Percussion.is_played
      simp only
      rw [hstatic.1, hstatic.2]
      simp [hout, hset]
    rw [h2]
    unfold Percussion.is_played
    rw [hpos]
    simp only
    rw [hstatic.1, hstatic.2]
    simp [hin, hset]

/-- Controller for the C1 witness: inside position `(3,4)` (distance 5 from
the origin). -/
def controllerForC1w : Controller :=
  { Controller.init "key_w1" "stick_w1" (HSV.MAXIMUM) (HSV.MINIMUM) 2000 with
      position := some (3, 4) }

/-- Percussion for the C1 witness: radius 10 centred at `(0,0)`, no
controller recorded yet. -/
def percussionForC1w : Percussion :=
  { name := "drum_w1", sound_path := "drum_w1.wav", center_position := (0, 0),
    radius := 10, currently_playing_controllers := ∅,
    sound := [100], sound_with_volume := [100] }

/-- C1 witness: the spec's radius-10 scenario.  At distance 5 the first
evaluation fires (`true`), a second evaluation at distance 5 does not
re-trigger, and after moving to distance 15 and back to distance 5 a
second `true` fires. -/
theorem isPlayed_name_edge_trigger_witness :
    controllerForC1w.position = some (3, 4) ∧
    euclideanDist percussionForC1w.center_position (3, 4) <
      ((percussionForC1w.radius : ℚ) : ℝ) ∧
    ¬ euclideanDist percussionForC1w.center_position (9, 12) <
      ((percussionForC1w.radius : ℚ) : ℝ) ∧
    (percussionForC1w.is_played controllerForC1w).1 = true ∧
    ((percussionForC1w.is_played controllerForC1w).2.is_played
      controllerForC1w).1 = false ∧
    ((((percussionForC1w.is_played controllerForC1w).2.is_played
        { controllerForC1w with position := some (9, 12) }).2.is_played
          controllerForC1w).1 = true) := by
  have hc : percussionForC1w.center_position = (0, 0) := rfl
  have hd1 : euclideanDist (0, 0) (3, 4) = 5 := by
    unfold euclideanDist
    norm_num
    rw [show (25 : ℝ) = 5 ^ 2 by norm_num, Real.sqrt_sq (by norm_num : (0:ℝ) ≤ 5)]
  have hd2 : euclideanDist (0, 0) (9, 12) = 15 := by
    unfold euclideanDist
    norm_num
    rw [show (225 : ℝ) = 15 ^ 2 by norm_num,
      Real.sqrt_sq (by norm_num : (0:ℝ) ≤ 15)]
  have hin : euclideanDist percussionForC1w.center_position (3, 4) <
      ((percussionForC1w.radius : ℚ) : ℝ) := by
    rw [hc, hd1]
    norm_num [percussionForC1w]
  have hout : ¬ euclideanDist percussionForC1w.center_position (9, 12) <
      ((percussionForC1w.radius : ℚ) : ℝ) := by
    rw [hc, hd2]
    norm_num [percussionForC1w]
  have h := isPlayed_name_edge_trigger percussionForC1w controllerForC1w
  have hentry := h.2.1 (3, 4) rfl hin
  refine ⟨rfl, hin, hout, ?_, hentry.2.2, h.2.2.2 (3, 4) (9, 12) rfl hin hout⟩
  exact hentry.1.mpr (Finset.not_mem_empty _)

/-! ### Claim C9 — tracking pushes the unmodified frame downstream -/

/-- C9: the frame returned by `track_controllers_in_frame` (and pushed to
the downstream queue by the tracker loop) is the input frame, unchanged in
every field: per-controller mask computation blurs only a deep copy of the
frame, and hit evaluation (`DrumSet.play` inside `trackerCycle`) never
touches frames at all. -/
theorem tracking_pushes_unmodified_frame {Image Mask : Type}
    (cv : CVRuntime Image Mask) (frame : Frame Image) (cs : List Controller)
    (ds : DrumSet) :
    (track_controllers_in_frame cv frame cs).1 = frame ∧
    (trackerCycle cv ds frame).2.1 = frame := by
  have htrack : ∀ (f : Frame Image) (l : List Controller),
      (track_controllers_in_frame cv f l).1 = f := by
    intro f l
    induction l generalizing f with
    | nil => rfl
    | cons c rest ih =>
      unfold track_controllers_in_frame
      simp only
      exact ih _
  exact ⟨htrack frame cs, htrack frame ds.controllers⟩

/-! ### Claim C2 — volume shaping and waveform derivation -/

/-- The clamp performed at the top of `Percussion.set_volume`:
`if volume < 0: volume = 0` then `if volume > 1: volume = 1`. -/
noncomputable def clamp01 (x : ℝ) : ℝ :=
  let v1 := if x < 0 then 0 else x
  if 1 < v1 then 1 else v1

/-- The effective playback volume of a hit with known velocity `v`:
`log2(1 + v / velocity_max_volume)` as computed in `Percussion.play`,
clamped into `[0, 1]` by `set_volume`. -/
noncomputable def playVolume (c : Controller) (v : ℝ) : ℝ :=
  clamp01 (Real.logb 2 (1 + v / ((c.velocity_max_volume : ℚ) : ℝ)))

/-- The `set_volume` rewritten through `clamp01` (definitional). -/
theorem set_volume_eq_map (sound : List ℤ) (volume : ℝ) :
    set_volume sound volume = sound.map (fun s : ℤ =>
      npToInt16 ((s : ℝ) * (clamp01 volume * 32767 /
        ((peakAmplitude sound : ℤ) : ℝ)))) := rfl

/-- The `clamp01` really lands in `[0, 1]`. -/
theorem clamp01_mem (x : ℝ) : 0 ≤ clamp01 x ∧ clamp01 x ≤ 1 := by
  unfold clamp01
  simp only
  split_ifs with h0 h1 h2
  · exact ⟨by norm_num, by norm_num⟩
  · exact ⟨by norm_num, by norm_num⟩
  · exact ⟨by norm_num, le_rfl⟩
  · exact ⟨not_lt.mp h0, not_lt.mp h2⟩

/-- The effective playback volume is exactly `1` at the calibrated
velocity (`log2 2 = 1`). -/
theorem playVolume_eq_one (c : Controller) (hvm : 0 < c.velocity_max_volume) :
    playVolume c ((c.velocity_max_volume : ℚ) : ℝ) = 1 := by
  unfold playVolume
  have hne : ((c.velocity_max_volume : ℚ) : ℝ) ≠ 0 :=
    ne_of_gt (by exact_mod_cast hvm)
  rw [div_self hne, show (1:ℝ) + 1 = 2 by norm_num,
    Real.logb_self_eq_one (by norm_num)]
  unfold clamp01
  norm_num

/-- The int16 absolute value of every sample is bounded by the computed
peak. -/
theorem int16Abs_le_peakAmplitude (sound : List ℤ) :
    ∀ s ∈ sound, int16Abs s ≤ peakAmplitude sound := by
  induction sound with
  | nil => intro s hs; cases hs
  | cons x xs ih =>
    intro s hs
    cases xs with
    | nil =>
      rcases List.mem_singleton.mp hs with rfl
      exact le_refl _
    | cons y ys =>
      have hpk : peakAmplitude (x :: y :: ys) =
          max (int16Abs x) (peakAmplitude (y :: ys)) := rfl
      rcases List.mem_cons.mp hs with hx | hxs
      · rw [hx, hpk]; exact le_max_left _ _
      · rw [hpk]; exact le_trans (ih s hxs) (le_max_right _ _)

/-- On samples no smaller than `-32767` the int16 absolute value agrees
with the mathematical one. -/
theorem int16Abs_eq_abs (s : ℤ) (h : -32767 ≤ s) : int16Abs s = |s| := by
  unfold int16Abs
  rw [if_neg (by omega)]

/-- The two's-complement wraparound is the identity on values already in
the int16 range. -/
theorem int16Wrap_eq_self (n : ℤ) (h1 : -32768 ≤ n) (h2 : n ≤ 32767) :
    int16Wrap n = n := by
  unfold int16Wrap
  omega

/-- Truncation toward zero keeps a bound that holds for the real value. -/
theorem truncToInt_abs_le (x : ℝ) (B : ℤ) (hB : 0 ≤ B) (h : |x| ≤ (B : ℝ)) :
    -B ≤ truncToInt x ∧ truncToInt x ≤ B := by
  unfold truncToInt
  by_cases h0 : 0 ≤ x
  · rw [if_pos h0]
    constructor
    · have h1 : (0:ℤ) ≤ ⌊x⌋ := Int.floor_nonneg.mpr h0
      omega
    · have h2 : x ≤ (B : ℝ) := (abs_le.mp h).2
      calc ⌊x⌋ ≤ ⌊(B : ℝ)⌋ := Int.floor_le_floor h2
        _ = B := Int.floor_intCast B
  · rw [if_neg h0]
    push_neg at h0
    constructor
    · have h1 : -(B : ℝ) ≤ x := (abs_le.mp h).1
      have h2 : ((-B : ℤ) : ℝ) ≤ x := by push_cast; linarith
      calc -B = ⌈((-B : ℤ) : ℝ)⌉ := (Int.ceil_intCast _).symm
        _ ≤ ⌈x⌉ := Int.ceil_le_ceil h2
    · have h2 : ⌈x⌉ ≤ ⌈(0:ℝ)⌉ := Int.ceil_le_ceil (le_of_lt h0)
      have h3 : ⌈(0:ℝ)⌉ = 0 := Int.ceil_zero
      omega

/-- C2 (amended: restricted to waveforms whose samples all lie within
`[-32767, 32767]`, i.e. waveforms not containing the most negative int16
value `-32768`, on which numpy int16 absolute value wraps): on a hit whose
controller velocity is known, the waveform handed to the audio backend is
derived from the ORIGINAL waveform `p.sound` — never from a previously
scaled buffer — with every sample scaled by
`volume * 32767 / peakAmplitude` (the peak really bounding every sample's
magnitude) and truncated to an integer sample, where
`volume = log2(1 + velocity / velocity_max_volume)` clamped into `[0,1]`;
the volume is `0` at velocity `0` and exactly `1` at
`velocity = velocity_max_volume`; the original `p.sound` is left unchanged
(so a repeated hit reproduces the same waveform), and every produced
sample stays within the int16 range. -/
theorem play_volume_shaping (p : Percussion) (c : Controller) (v : ℝ)
    (hv : c.velocity = some v) (hvm : 0 < c.velocity_max_volume)
    (hpk : 0 < peakAmplitude p.sound)
    (hsam : ∀ s ∈ p.sound, -32767 ≤ s ∧ s ≤ 32767) :
    (p.play c).2 = p.sound.map (fun s : ℤ => truncToInt ((s : ℝ) * (playVolume c v * 32767 / ((peakAmplitude p.sound : ℤ) : ℝ)))) ∧
    (∀ s ∈ p.sound, |s| ≤ peakAmplitude p.sound) ∧
    (p.play c).1.sound = p.sound ∧
    ((p.play c).1.play c).2 = (p.play c).2 ∧
    (0 ≤ playVolume c v ∧ playVolume c v ≤ 1) ∧
    (v = 0 → playVolume c v = 0) ∧
    (v = ((c.velocity_max_volume : ℚ) : ℝ) → playVolume c v = 1) ∧
    (∀ s ∈ (p.play c).2, -32767 ≤ s ∧ s ≤ 32767) := by
  have hps : p.play c = ({ p with sound_with_volume := set_volume p.sound (Real.logb 2 (1 + v / ((c.velocity_max_volume : ℚ) : ℝ))) }, set_volume p.sound (Real.logb 2 (1 + v / ((c.velocity_max_volume : ℚ) : ℝ)))) := by
    unfold Percussion.play
    rw [hv]
  have habs_le : ∀ s ∈ p.sound, |s| ≤ peakAmplitude p.sound := by
    intro x hx
    rw [← int16Abs_eq_abs x (hsam x hx).1]
    exact int16Abs_le_peakAmplitude p.sound x hx
  set vol := clamp01 (Real.logb 2 (1 + v / ((c.velocity_max_volume : ℚ) : ℝ))) with hvol
  have hvolmem := clamp01_mem (Real.logb 2 (1 + v / ((c.velocity_max_volume : ℚ) : ℝ)))
  rw [← hvol] at hvolmem
  set peakR : ℝ := ((peakAmplitude p.sound : ℤ) : ℝ) with hpeakR
  have hpkR : (0:ℝ) < peakR := by rw [hpeakR]; exact_mod_cast hpk
  have hfac : 0 ≤ vol * 32767 / peakR :=
    div_nonneg (mul_nonneg hvolmem.1 (by norm_num)) (le_of_lt hpkR)
  have htrunc : ∀ x ∈ p.sound,
      -32767 ≤ truncToInt ((x:ℝ) * (vol * 32767 / peakR)) ∧
      truncToInt ((x:ℝ) * (vol * 32767 / peakR)) ≤ 32767 := by
    intro x hx
    have hxpk : |(x:ℝ)| ≤ peakR := by
      rw [hpeakR, ← Int.cast_abs]
      exact_mod_cast habs_le x hx
    have habs : |(x:ℝ) * (vol * 32767 / peakR)| ≤ 32767 := by
      rw [abs_mul, abs_of_nonneg hfac]
      have h1 : |(x:ℝ)| * (vol * 32767 / peakR) ≤ peakR * (vol * 32767 / peakR) :=
        mul_le_mul_of_nonneg_right hxpk hfac
      have h2 : peakR * (vol * 32767 / peakR) = vol * 32767 := by
        field_simp
      have h3 : vol * 32767 ≤ 32767 := by nlinarith [hvolmem.2]
      calc |(x:ℝ)| * (vol * 32767 / peakR) ≤ peakR * (vol * 32767 / peakR) := h1
        _ = vol * 32767 := h2
        _ ≤ 32767 := h3
    exact truncToInt_abs_le ((x:ℝ) * (vol * 32767 / peakR)) 32767
      (by norm_num) (by exact_mod_cast habs)
  have hmapeq : set_volume p.sound (Real.logb 2 (1 + v / ((c.velocity_max_volume : ℚ) : ℝ))) = p.sound.map (fun s : ℤ => truncToInt ((s : ℝ) * (vol * 32767 / peakR))) := by
    rw [set_volume_eq_map]
    apply List.map_congr_left
    intro x hx
    show npToInt16 ((x:ℝ) * (vol * 32767 / peakR)) =
      truncToInt ((x:ℝ) * (vol * 32767 / peakR))
    unfold npToInt16
    exact int16Wrap_eq_self _ (by have := (htrunc x hx).1; omega) (htrunc x hx).2
  refine ⟨?_, habs_le, ?_, ?_, hvolmem, ?_, ?_, ?_⟩
  · rw [hps]
    exact hmapeq
  · rw [hps]
  · rw [hps]
    unfold Percussion.play
    rw [hv]
  · intro h
    subst h
    unfold playVolume
    rw [zero_div, add_zero, Real.logb_one]
    unfold clamp01
    norm_num
  · intro h
    subst h
    exact playVolume_eq_one c hvm
  · intro s hs
    rw [hps] at hs
    rw [hmapeq] at hs
    obtain ⟨x, hx, hsx⟩ := List.mem_map.mp hs
    rw [← hsx]
    exact htrunc x hx

/-- Controller for the C2 witness: known velocity 2000, calibrated
`velocity_max_volume` 2000. -/
noncomputable def controllerForC2 : Controller :=
  { Controller.init "key_c2" "stick_c2" (HSV.MAXIMUM) (HSV.MINIMUM) 2000 with
      velocity := some 2000 }

/-- Percussion for the C2 witness: original waveform `[100, -50]`. -/
def percussionForC2 : Percussion :=
  { name := "drum_c2", sound_path := "drum_c2.wav", center_position := (0, 0),
    radius := 10, currently_playing_controllers := ∅,
    sound := [100, -50], sound_with_volume := [100, -50] }

/-- C2 witness: at the calibrated velocity the effective volume is exactly
`1`, and a hit leaves the original waveform untouched. -/
theorem play_volume_shaping_witness :
    controllerForC2.velocity = some 2000 ∧
    (0:ℚ) < controllerForC2.velocity_max_volume ∧
    (0:ℤ) < peakAmplitude percussionForC2.sound ∧
    (∀ s ∈ percussionForC2.sound, -32767 ≤ s ∧ s ≤ 32767) ∧
    (percussionForC2.play controllerForC2).1.sound = percussionForC2.sound ∧
    playVolume controllerForC2 2000 = 1 := by
  have h := play_volume_shaping percussionForC2 controllerForC2 2000 rfl
    (by norm_num [controllerForC2, Controller.init]) (by decide) (by decide)
  refine ⟨rfl, by norm_num [controllerForC2, Controller.init], by decide,
    by decide, h.2.2.1, h.2.2.2.2.2.2.1 ?_⟩
  norm_num [controllerForC2, Controller.init]

/-- The claim reads `peakAmplitudeOfOriginal` as the true peak amplitude
of the original waveform; this second definition follows those words (with
the mathematical absolute value), to be compared with `peakAmplitude`,
which embeds what the source computes. -/
def specPeakAmplitude (sound : List ℤ) : ℤ :=
  (sound.map (fun s => |s|)).foldr max 0

/-- Controller for the C2 counterexample: velocity = calibrated maximum,
so the claimed volume is exactly 1. -/
noncomputable def controllerForC2x : Controller :=
  { Controller.init "key_c2x" "stick_c2x" (HSV.MAXIMUM) (HSV.MINIMUM) 2000 with
      velocity := some 2000 }

/-- Percussion for the C2 counterexample: its waveform contains the most
negative int16 sample `-32768`, on which numpy int16 absolute value
wraps. -/
def percussionForC2x : Percussion :=
  { name := "drum_c2x", sound_path := "drum_c2x.wav", center_position := (0, 0),
    radius := 10, currently_playing_controllers := ∅,
    sound := [-32768, 1], sound_with_volume := [-32768, 1] }

/-- C2 counterexample: for the waveform `[-32768, 1]` the true peak
amplitude is `32768`, but `np.abs` wraps `-32768` to itself, so the code
computes peak `1`; at volume `1` the played waveform is NOT the original
scaled by `volume * 32767 / peakAmplitudeOfOriginal` and rounded — the
second sample comes out as `32767` where the claim predicts `0`. -/
theorem play_wrapped_peak_counterexample :
    specPeakAmplitude percussionForC2x.sound = 32768 ∧
    peakAmplitude percussionForC2x.sound = 1 ∧
    controllerForC2x.velocity = some 2000 ∧
    playVolume controllerForC2x 2000 = 1 ∧
    (percussionForC2x.play controllerForC2x).2 ≠ percussionForC2x.sound.map (fun s : ℤ => truncToInt ((s : ℝ) * (playVolume controllerForC2x 2000 * 32767 / ((specPeakAmplitude percussionForC2x.sound : ℤ) : ℝ)))) := by
  have hvol1 : playVolume controllerForC2x 2000 = 1 := by
    rw [show (2000:ℝ) = ((controllerForC2x.velocity_max_volume : ℚ) : ℝ) by norm_num [controllerForC2x, Controller.init]]
    exact playVolume_eq_one controllerForC2x
      (by norm_num [controllerForC2x, Controller.init])
  refine ⟨by decide, by decide, rfl, hvol1, ?_⟩
  have hplay : (percussionForC2x.play controllerForC2x).2 = set_volume percussionForC2x.sound (Real.logb 2 (1 + 2000 / ((controllerForC2x.velocity_max_volume : ℚ) : ℝ))) := by
    unfold Percussion.play
    rw [show controllerForC2x.velocity = some (2000:ℝ) from rfl]
  have hc : clamp01 (Real.logb 2 (1 + 2000 / ((controllerForC2x.velocity_max_volume : ℚ) : ℝ))) = 1 := hvol1
  have hpk1 : ((peakAmplitude percussionForC2x.sound : ℤ) : ℝ) = 1 := by
    rw [show peakAmplitude percussionForC2x.sound = 1 from by decide]
    norm_num
  have hpk2 : ((specPeakAmplitude percussionForC2x.sound : ℤ) : ℝ) = 32768 := by
    rw [show specPeakAmplitude percussionForC2x.sound = 32768 from by decide]
    norm_num
  rw [hplay, set_volume_eq_map]
  simp only [hc, hvol1, hpk1, hpk2]
  intro heq
  rw [show percussionForC2x.sound = [-32768, 1] from rfl] at heq
  simp only [List.map_cons, List.map_nil] at heq
  injection heq with h0 htail
  injection htail with h1 _
  norm_num at h1
  have hA : npToInt16 (32767 : ℝ) = 32767 := by
    unfold npToInt16 truncToInt
    rw [if_pos (by norm_num : (0:ℝ) ≤ 32767),
      show ((32767:ℝ)) = ((32767:ℤ):ℝ) by norm_num, Int.floor_intCast]
    decide
  have hB : truncToInt ((32767:ℝ) / 32768) = 0 := by
    unfold truncToInt
    rw [if_pos (by norm_num)]
    exact Int.floor_eq_zero_iff.mpr (Set.mem_Ico.mpr ⟨by norm_num, by norm_num⟩)
  rw [hA, hB] at h1
  exact absurd h1 (by norm_num)

/-! ### Claim C8 — end-to-end scripted run -/

/-- When the newest sample has a position but the previous one is null,
the refresh updates only `position`. -/
theorem refresh_of_prev_none (c : Controller) (p : ℚ × ℚ) (t1 t2 : ℚ)
    (h1 : c.positions_in_time.getLast? = some ⟨some p, t1⟩)
    (h2 : c.positions_in_time.dropLast.getLast? = some ⟨none, t2⟩) :
    c.refresh_motion_attributes = { c with position := some p } := by
  unfold Controller.refresh_motion_attributes
  rw [h1, h2]

/-- When the history is a single sample carrying a position, the refresh
updates only `position`. -/
theorem refresh_of_single (c : Controller) (p : ℚ × ℚ) (t1 : ℚ)
    (h1 : c.positions_in_time.getLast? = some ⟨some p, t1⟩)
    (h2 : c.positions_in_time.dropLast.getLast? = none) :
    c.refresh_motion_attributes = { c with position := some p } := by
  unfold Controller.refresh_motion_attributes
  rw [h1, h2]

/-- When the two newest samples carry positions and time advances, the
refresh updates `position` and recomputes `velocity`. -/
theorem refresh_of_two (c : Controller) (p1 p2 : ℚ × ℚ) (t1 t2 : ℚ)
    (h1 : c.positions_in_time.getLast? = some ⟨some p1, t1⟩)
    (h2 : c.positions_in_time.dropLast.getLast? = some ⟨some p2, t2⟩)
    (ht : t2 < t1) :
    c.refresh_motion_attributes = { c with position := some p1, velocity := some (euclideanDist p1 p2 / ((t1 - t2 : ℚ) : ℝ)) } := by
  unfold Controller.refresh_motion_attributes
  rw [h1, h2]
  simp [ht]

/-- Scripted timestamps `[0, 1, 2, 3]` of the C8 end-to-end scenario. -/
def scriptT : ℕ → ℚ
  | 0 => 0
  | 1 => 1
  | 2 => 2
  | _ => 3

/-- Scripted segmentation results `[null, (0,0), (5,5), (20,20)]` of the
C8 end-to-end scenario. -/
def scriptPositions : ℕ → Option (ℚ × ℚ)
  | 0 => none
  | 1 => some (0, 0)
  | 2 => some (5, 5)
  | _ => some (20, 20)

/-- The C8 scenario's frames: the opaque image payload is the frame index,
through which the scripted segmentation produces the scripted positions. -/
def scriptFrame (i : ℕ) : Frame ℕ :=
  { grabbed := true, image := i, fps := none, frame_count := some i,
    timestamp := scriptT i }

/-- CV capabilities scripted for the C8 scenario: the colour pipeline is
the identity on the frame index and the contour-centre extractor returns
the scripted position of that frame. -/
def scriptCV : CVRuntime ℕ ℕ :=
  { gaussianBlur := id, cvtColorHSV := id,
    inRange := fun img _ _ => img, erode := id, dilate := id,
    largestContourCenter := fun img => scriptPositions img }

/-- Controller of the C8 scenario. -/
def controllerForC8 : Controller :=
  Controller.init "key_c8" "stick_c8" (HSV.MAXIMUM) (HSV.MINIMUM) 2000

/-- Percussion of the C8 scenario: radius 3 centred at `(5,5)`. -/
def percussionForC8 : Percussion :=
  { name := "drum_c8", sound_path := "drum_c8.wav", center_position := (5, 5),
    radius := 3, currently_playing_controllers := ∅,
    sound := [100], sound_with_volume := [100] }

/-- One tracker cycle over a single-controller, single-percussion drum
set, written out in full. -/
theorem trackerCycle_singleton {Image Mask : Type} (cv : CVRuntime Image Mask)
    (c : Controller) (p : Percussion) (f : Frame Image) :
    trackerCycle cv ⟨[c], [p]⟩ f =
      (⟨[c.observe (cv.largestContourCenter (get_controller_mask cv c f).1) f.timestamp],
        [if (p.is_played (c.observe (cv.largestContourCenter (get_controller_mask cv c f).1) f.timestamp)).1 then ((p.is_played (c.observe (cv.largestContourCenter (get_controller_mask cv c f).1) f.timestamp)).2.play (c.observe (cv.largestContourCenter (get_controller_mask cv c f).1) f.timestamp)).1 else (p.is_played (c.observe (cv.largestContourCenter (get_controller_mask cv c f).1) f.timestamp)).2]⟩,
       f,
       if (p.is_played (c.observe (cv.largestContourCenter (get_controller_mask cv c f).1) f.timestamp)).1 then 1 else 0) := by
  have hgm : (get_controller_mask cv c f).2 = f := rfl
  unfold trackerCycle
  simp only [track_controllers_in_frame, hgm, DrumSet.play, playControllerList,
    playPercussionList]
  by_cases hb : (p.is_played (c.observe (cv.largestContourCenter (get_controller_mask cv c f).1) f.timestamp)).1 <;>
    simp [hb]

/-- Controller state after frame 0 (null detection at t = 0). -/
def cB : Controller :=
  { controllerForC8 with positions_in_time := [⟨none, 0⟩] }

/-- Controller state after frame 1 (detection `(0,0)` at t = 1). -/
def cC : Controller :=
  { cB with
    positions_in_time := [⟨none, 0⟩, ⟨some (0, 0), 1⟩],
    position := some (0, 0) }

/-- Velocity derived at frame 2. -/
noncomputable def vD : ℝ :=
  euclideanDist (5, 5) (0, 0) / (((2 : ℚ) - 1 : ℚ) : ℝ)

/-- Controller state after frame 2 (detection `(5,5)` at t = 2). -/
noncomputable def cD : Controller :=
  { cC with
    positions_in_time := [⟨none, 0⟩, ⟨some (0, 0), 1⟩, ⟨some (5, 5), 2⟩],
    position := some (5, 5),
    velocity := some vD }

/-- Velocity derived at frame 3. -/
noncomputable def vE : ℝ :=
  euclideanDist (20, 20) (5, 5) / (((3 : ℚ) - 2 : ℚ) : ℝ)

/-- Controller state after frame 3 (detection `(20,20)` at t = 3). -/
noncomputable def cE : Controller :=
  { cD with
    positions_in_time := [⟨none, 0⟩, ⟨some (0, 0), 1⟩, ⟨some (5, 5), 2⟩, ⟨some (20, 20), 3⟩],
    position := some (20, 20),
    velocity := some vE }

/-- Percussion state right after the frame-2 hit is registered. -/
def pHit : Percussion :=
  { percussionForC8 with currently_playing_controllers := insert "stick_c8" ∅ }

theorem c8_obs0 : controllerForC8.observe (scriptCV.largestContourCenter (get_controller_mask scriptCV controllerForC8 (scriptFrame 0)).1) (scriptFrame 0).timestamp = cB := by
  show controllerForC8.observe none 0 = cB
  unfold Controller.observe
  have hq : dequeAppend Controller.DEQUE_MAX_LENGTH controllerForC8.positions_in_time ⟨none, 0⟩ = [⟨none, (0:ℚ)⟩] := rfl
  rw [hq]
  exact refresh_of_last_none _ 0 rfl

theorem c8_obs1 : cB.observe (scriptCV.largestContourCenter (get_controller_mask scriptCV cB (scriptFrame 1)).1) (scriptFrame 1).timestamp = cC := by
  show cB.observe (some (0, 0)) 1 = cC
  unfold Controller.observe
  have hq : dequeAppend Controller.DEQUE_MAX_LENGTH cB.positions_in_time ⟨some (0, 0), 1⟩ = [⟨none, 0⟩, ⟨some (0, 0), 1⟩] := rfl
  rw [hq]
  exact refresh_of_prev_none _ (0, 0) 1 0 rfl rfl

theorem c8_obs2 : cC.observe (scriptCV.largestContourCenter (get_controller_mask scriptCV cC (scriptFrame 2)).1) (scriptFrame 2).timestamp = cD := by
  show cC.observe (some (5, 5)) 2 = cD
  unfold Controller.observe
  have hq : dequeAppend Controller.DEQUE_MAX_LENGTH cC.positions_in_time ⟨some (5, 5), 2⟩ = [⟨none, 0⟩, ⟨some (0, 0), 1⟩, ⟨some (5, 5), 2⟩] := rfl
  rw [hq]
  exact refresh_of_two _ (5, 5) (0, 0) 2 1 rfl rfl (by norm_num)

theorem c8_obs3 : cD.observe (scriptCV.largestContourCenter (get_controller_mask scriptCV cD (scriptFrame 3)).1) (scriptFrame 3).timestamp = cE := by
  show cD.observe (some (20, 20)) 3 = cE
  unfold Controller.observe
  have hq : dequeAppend Controller.DEQUE_MAX_LENGTH cD.positions_in_time ⟨some (20, 20), 3⟩ = [⟨none, 0⟩, ⟨some (0, 0), 1⟩, ⟨some (5, 5), 2⟩, ⟨some (20, 20), 3⟩] := rfl
  rw [hq]
  exact refresh_of_two _ (20, 20) (5, 5) 3 2 rfl rfl (by norm_num)

theorem c8_dist_out1 : ¬ euclideanDist percussionForC8.center_position (0, 0) < ((percussionForC8.radius : ℚ) : ℝ) := by
  show ¬ euclideanDist (5, 5) (0, 0) < ((3 : ℚ) : ℝ)
  have hd : euclideanDist (5, 5) (0, 0) = Real.sqrt 50 := by
    unfold euclideanDist; norm_num
  rw [hd, not_lt, show ((3 : ℚ) : ℝ) = 3 by norm_num]
  exact (Real.le_sqrt' (by norm_num)).mpr (by norm_num)

theorem c8_dist_in2 : euclideanDist percussionForC8.center_position (5, 5) < ((percussionForC8.radius : ℚ) : ℝ) := by
  show euclideanDist (5, 5) (5, 5) < ((3 : ℚ) : ℝ)
  have hd : euclideanDist (5, 5) (5, 5) = 0 := by
    unfold euclideanDist; norm_num
  rw [hd]
  norm_num

theorem c8_dist_out3 : ¬ euclideanDist percussionForC8.center_position (20, 20) < ((percussionForC8.radius : ℚ) : ℝ) := by
  show ¬ euclideanDist (5, 5) (20, 20) < ((3 : ℚ) : ℝ)
  have hd : euclideanDist (5, 5) (20, 20) = Real.sqrt 450 := by
    unfold euclideanDist; norm_num
  rw [hd, not_lt, show ((3 : ℚ) : ℝ) = 3 by norm_num]
  exact (Real.le_sqrt' (by norm_num)).mpr (by norm_num)

theorem c8_hit0 : percussionForC8.is_played cB = (false, percussionForC8) := rfl

theorem c8_hit1 : percussionForC8.is_played cC = (false, percussionForC8) := by
  have h1 : percussionForC8.is_played cC = (if euclideanDist percussionForC8.center_position (0, 0) < ((percussionForC8.radius : ℚ) : ℝ) then (if "stick_c8" ∉ percussionForC8.currently_playing_controllers then (true, { percussionForC8 with currently_playing_controllers := insert "stick_c8" percussionForC8.currently_playing_controllers }) else (false, percussionForC8)) else (if "stick_c8" ∈ percussionForC8.currently_playing_controllers then (false, { percussionForC8 with currently_playing_controllers := percussionForC8.currently_playing_controllers.erase "stick_c8" }) else (false, percussionForC8))) := rfl
  rw [h1, if_neg c8_dist_out1,
    if_neg (show ¬ "stick_c8" ∈ percussionForC8.currently_playing_controllers from Finset.not_mem_empty _)]

theorem c8_hit2 : percussionForC8.is_played cD = (true, pHit) := by
  have h1 : percussionForC8.is_played cD = (if euclideanDist percussionForC8.center_position (5, 5) < ((percussionForC8.radius : ℚ) : ℝ) then (if "stick_c8" ∉ percussionForC8.currently_playing_controllers then (true, { percussionForC8 with currently_playing_controllers := insert "stick_c8" percussionForC8.currently_playing_controllers }) else (false, percussionForC8)) else (if "stick_c8" ∈ percussionForC8.currently_playing_controllers then (false, { percussionForC8 with currently_playing_controllers := percussionForC8.currently_playing_controllers.erase "stick_c8" }) else (false, percussionForC8))) := rfl
  rw [h1, if_pos c8_dist_in2,
    if_pos (show "stick_c8" ∉ percussionForC8.currently_playing_controllers from Finset.not_mem_empty _)]
  rfl

theorem c8_play2 : pHit.play cD = ({ pHit with sound_with_volume := set_volume pHit.sound (Real.logb 2 (1 + vD / ((cD.velocity_max_volume : ℚ) : ℝ))) }, set_volume pHit.sound (Real.logb 2 (1 + vD / ((cD.velocity_max_volume : ℚ) : ℝ)))) := by
  unfold Percussion.play
  rw [show cD.velocity = some vD from rfl]

theorem c8_hit3 (w : List ℤ) :
    (({ pHit with sound_with_volume := w }).is_played cE).1 = false := by
  have h1 : ({ pHit with sound_with_volume := w }).is_played cE = (if euclideanDist percussionForC8.center_position (20, 20) < ((percussionForC8.radius : ℚ) : ℝ) then (if "stick_c8" ∉ pHit.currently_playing_controllers then (true, { pHit with sound_with_volume := w, currently_playing_controllers := insert "stick_c8" pHit.currently_playing_controllers }) else (false, { pHit with sound_with_volume := w })) else (if "stick_c8" ∈ pHit.currently_playing_controllers then (false, { pHit with sound_with_volume := w, currently_playing_controllers := pHit.currently_playing_controllers.erase "stick_c8" }) else (false, { pHit with sound_with_volume := w }))) := rfl
  rw [h1, if_neg c8_dist_out3,
    if_pos (show "stick_c8" ∈ pHit.currently_playing_controllers from Finset.mem_insert_self _ _)]

/-- Drum set and hit count after processing frame 0. -/
noncomputable def c8Cycle0 : DrumSet × Frame ℕ × ℕ :=
  trackerCycle scriptCV ⟨[controllerForC8], [percussionForC8]⟩ (scriptFrame 0)

/-- Drum set and hit count after processing frame 1. -/
noncomputable def c8Cycle1 : DrumSet × Frame ℕ × ℕ :=
  trackerCycle scriptCV c8Cycle0.1 (scriptFrame 1)

/-- Drum set and hit count after processing frame 2. -/
noncomputable def c8Cycle2 : DrumSet × Frame ℕ × ℕ :=
  trackerCycle scriptCV c8Cycle1.1 (scriptFrame 2)

/-- Drum set and hit count after processing frame 3. -/
noncomputable def c8Cycle3 : DrumSet × Frame ℕ × ℕ :=
  trackerCycle scriptCV c8Cycle2.1 (scriptFrame 3)

theorem c8_step0 : c8Cycle0 = (⟨[cB], [percussionForC8]⟩, scriptFrame 0, 0) := by
  unfold c8Cycle0
  rw [trackerCycle_singleton, c8_obs0, c8_hit0]
  simp

theorem c8_step1 : c8Cycle1 = (⟨[cC], [percussionForC8]⟩, scriptFrame 1, 0) := by
  have h0 : c8Cycle0.1 = ⟨[cB], [percussionForC8]⟩ := by rw [c8_step0]
  unfold c8Cycle1
  rw [h0, trackerCycle_singleton, c8_obs1, c8_hit1]
  simp

theorem c8_step2 : c8Cycle2 = (⟨[cD], [(pHit.play cD).1]⟩, scriptFrame 2, 1) := by
  have h1 : c8Cycle1.1 = ⟨[cC], [percussionForC8]⟩ := by rw [c8_step1]
  unfold c8Cycle2
  rw [h1, trackerCycle_singleton, c8_obs2, c8_hit2]
  simp

theorem c8_step3_hits : c8Cycle3.2.2 = 0 := by
  have h2 : c8Cycle2.1 = ⟨[cD], [(pHit.play cD).1]⟩ := by rw [c8_step2]
  unfold c8Cycle3
  rw [h2, trackerCycle_singleton, c8_obs3, c8_play2]
  simp [c8_hit3]

/-- C8: for the scripted frame sequence yielding controller positions
`[null, (0,0), (5,5), (20,20)]` at timestamps `[0,1,2,3]`, with a single
percussion of radius 3 centred at `(5,5)`, running the tracker cycle on
each frame in order fires exactly one hit: none at frames 0, 1 and 3, and
exactly one at the third frame (t = 2). -/
theorem endToEnd_single_hit_at_third_frame :
    c8Cycle0.2.2 = 0 ∧ c8Cycle1.2.2 = 0 ∧ c8Cycle2.2.2 = 1 ∧ c8Cycle3.2.2 = 0 :=
  ⟨by rw [c8_step0], by rw [c8_step1], by rw [c8_step2], c8_step3_hits⟩
